import Mathlib

/-!
Verification of the Doorbell Repeater firmware against its design
specification.

The definitions below are a shallow embedding of the firmware sources
(src/DoorBellRepeater.ino, with the playback indicator LED taken from the
src/unnamed/part_000 variant, which is the only variant that drives an LED
during playback).  External library objects (the MP3 decoder, the LittleFS
file system, the HTTP server) are modelled at their interface boundary: the
decoder exposes a running flag set by begin/stop, a file source exposes
size/position/open status, and the store holds at most one asset whose size
we track.  Nondeterministic outcomes of boundary calls (decoder begin
succeeding, write-open succeeding, bytes decoded per loop call) are inputs
to the corresponding operations.
-/

namespace DoorBell

/-- A playback file source object (AudioFileSourceLittleFS): total size of
the bound file, current read position, and whether the underlying store
file was successfully opened (the constructor opens the fixed ringtone
path; when the asset is absent the object exists but holds no open file,
and getSize/getPos report 0). -/
structure FileSrc where
  size : Nat
  pos : Nat
  isOpen : Bool
deriving DecidableEq, Repr

/-- Number of OS-level open file handles held by one source slot. -/
def srcOpenCount : Option FileSrc → Nat
  | some h => if h.isOpen then 1 else 0
  | none => 0

/-- The modelled firmware state.
`store`: the ringtone asset (`none` = absent, `some n` = present with n
bytes).  `file`: the global playback source pointer (`none` = nullptr).
`mp3Running`: the decoder running flag.  `openSrcs`: how many OS-open
playback sources are alive in total, including ones leaked by overwriting
the pointer without delete.  `uploadFile`: the upload write handle
(`some w` = open with w bytes written so far, `none` = invalid/closed).
`ledBlue`: the playing indicator LED (part_000 variant). -/
structure SysState where
  store : Option Nat
  file : Option FileSrc
  mp3Running : Bool
  openSrcs : Nat
  uploadFile : Option Nat
  ledBlue : Bool
deriving DecidableEq, Repr

/-- State right after setup(): globals null/zeroed, decoder idle, LED off;
the persisted asset may or may not exist. -/
def bootState (asset : Option Nat) : SysState :=
  { store := asset, file := none, mp3Running := false, openSrcs := 0,
    uploadFile := none, ledBlue := false }

/-- Construct a file source on the fixed ringtone path (the constructor of
AudioFileSourceLittleFS opens the file iff it exists). -/
def mkSrc : Option Nat → FileSrc
  | some n => { size := n, pos := 0, isOpen := true }
  | none => { size := 0, pos := 0, isOpen := false }

/-- file = new AudioFileSourceLittleFS(RINGTONE_NAME): overwrites the
pointer with a fresh source; if the new source holds an open file the
count of live open sources grows (a previous un-deleted open source
stays open and is leaked). -/
def openSrcStep (s : SysState) : SysState :=
  let h := mkSrc s.store
  { s with file := some h, openSrcs := s.openSrcs + srcOpenCount (some h) }

/-- file->close(): closes the underlying file of the current source, if
any; the pointer itself is unchanged. -/
def closeSrcStep (s : SysState) : SysState :=
  match s.file with
  | some h =>
    { s with
      file := some { h with isOpen := false }
      openSrcs := s.openSrcs - (if h.isOpen then 1 else 0) }
  | none => s

/-- delete file; file = nullptr: releases the source object (its
destructor closes the underlying file if still open). -/
def deleteSrcStep (s : SysState) : SysState :=
  match s.file with
  | some h =>
    { s with
      file := none
      openSrcs := s.openSrcs - (if h.isOpen then 1 else 0) }
  | none => s

/-- mp3->stop(): clears the decoder running flag. -/
def stopStep (s : SysState) : SysState := { s with mp3Running := false }

/-- mp3->begin(file, out): the decoder starts iff begin succeeds; the
boolean outcome of the boundary call is an input.  The firmware discards
this return value. -/
def beginStep (ok : Bool) (s : SysState) : SysState := { s with mp3Running := ok }

/-- digitalWrite(LED_BLUE_PIN, HIGH) on playback start (part_000). -/
def ledOnStep (s : SysState) : SysState := { s with ledBlue := true }

/-- doRing, playback part (the HTTP acknowledgment is modelled with the
command dispatch below).  Not running: turn the indicator on, open a fresh
source, begin.  Running: stop the decoder, close and delete the current
source, open a fresh source, begin.  Mirrors src/DoorBellRepeater.ino
lines 197-216. -/
def doRingFn (ok : Bool) (s : SysState) : SysState :=
  if s.mp3Running then
    beginStep ok (openSrcStep (deleteSrcStep (closeSrcStep (stopStep s))))
  else
    beginStep ok (openSrcStep (ledOnStep s))

/-- The intermediate states doRing passes through, one entry per primitive
operation, in program order.  The last entry equals doRingFn. -/
def doRingMicro (ok : Bool) (s : SysState) : List SysState :=
  if s.mp3Running then
    [stopStep s,
     closeSrcStep (stopStep s),
     deleteSrcStep (closeSrcStep (stopStep s)),
     openSrcStep (deleteSrcStep (closeSrcStep (stopStep s))),
     beginStep ok (openSrcStep (deleteSrcStep (closeSrcStep (stopStep s))))]
  else
    [ledOnStep s,
     openSrcStep (ledOnStep s),
     beginStep ok (openSrcStep (ledOnStep s))]

/-- One visit to the playback step of loop() (lines 337-354): if the
decoder is running, mp3->loop() decodes, advancing the read position by at
most `adv` bytes (reads stop at end of file); then the end-of-stream check
compares getSize() to getPos() and on equality stops the decoder, closes
and deletes the source, and turns the indicator off. -/
def playTick (adv : Nat) (s : SysState) : SysState :=
  if s.mp3Running then
    match s.file with
    | some h =>
      let p := min (h.pos + adv) h.size
      if h.size = p then
        { s with
          mp3Running := false
          file := none
          openSrcs := s.openSrcs - (if h.isOpen then 1 else 0)
          ledBlue := false }
      else
        { s with file := some { h with pos := p } }
    | none => s
  else s

/-- The four externally delivered upload events (HTTPUpload status values
UPLOAD_FILE_START / WRITE / END / ABORTED).  `start` carries whether
LittleFS.open(RINGTONE_NAME, w-mode) succeeds; `write` carries the chunk
size; `fileEnd` carries upload.totalSize as reported by the HTTP layer. -/
inductive UpEvent where
  | start (openOk : Bool)
  | write (n : Nat)
  | fileEnd (total : Nat)
  | aborted
deriving DecidableEq, Repr

/-- handleFileUpload (lines 259-314).  start: remove any existing asset,
then open for writing (truncating), leaving an empty asset and a fresh
handle on success and an invalid handle, no asset, on failure.  write:
append iff the handle is valid.  fileEnd: if the handle is valid, close
it, and if totalSize is 0 remove the just-written asset.  aborted: if the
handle is valid, close it and remove the asset. -/
def upStep (s : SysState) : UpEvent → SysState
  | .start ok =>
    if ok then { s with store := some 0, uploadFile := some 0 }
    else { s with store := none, uploadFile := none }
  | .write n =>
    match s.uploadFile with
    | some w => { s with uploadFile := some (w + n), store := some (w + n) }
    | none => s
  | .fileEnd t =>
    match s.uploadFile with
    | some _ =>
      if t = 0 then { s with uploadFile := none, store := none }
      else { s with uploadFile := none }
    | none => s
  | .aborted =>
    match s.uploadFile with
    | some _ => { s with uploadFile := none, store := none }
    | none => s

/-- Run a sequence of upload events. -/
def runUp : List UpEvent → SysState → SysState
  | [], s => s
  | e :: es, s => runUp es (upStep s e)

/-- Bytes the HTTP layer has delivered since the last start event, after
processing a list of events, starting from `acc`. -/
def accAfterB (acc : Nat) : List UpEvent → Nat
  | [] => acc
  | .start _ :: es => accAfterB 0 es
  | .write n :: es => accAfterB (acc + n) es
  | .fileEnd _ :: es => accAfterB acc es
  | .aborted :: es => accAfterB acc es

/-- Well-formedness of an upload event stream as produced by the HTTP
layer: every fileEnd event reports exactly the number of bytes delivered
as chunks since the last start. -/
def wfB : Nat → List UpEvent → Bool
  | _, [] => true
  | _, .start _ :: es => wfB 0 es
  | acc, .write n :: es => wfB (acc + n) es
  | acc, .fileEnd t :: es => decide (t = acc) && wfB acc es
  | acc, .aborted :: es => wfB acc es

/-- Upload invariant, relative to the bytes delivered since the last
start: either the write handle is closed and the store holds no
zero-length asset, or the handle is open with exactly the delivered bytes
written, the asset having exactly that size. -/
def invU (acc : Nat) (s : SysState) : Prop :=
  (s.uploadFile = none ∧ s.store ≠ some 0) ∨
  (s.uploadFile = some acc ∧ s.store = some acc)

instance (acc : Nat) (s : SysState) : Decidable (invU acc s) := by
  unfold invU; infer_instance

/-- The operations that touch the modelled state: a ring command (with the
decoder begin outcome), a playback tick (with the bytes decoded), an
upload event, and the remaining command handlers, which do not modify the
modelled state. -/
inductive Op where
  | ring (ok : Bool)
  | tick (adv : Nat)
  | upload (e : UpEvent)
  | settings
  | reboot
  | rootInfo
  | uploadForm
deriving DecidableEq, Repr

def applyOp : Op → SysState → SysState
  | .ring ok, s => doRingFn ok s
  | .tick adv, s => playTick adv s
  | .upload e, s => upStep s e
  | .settings, s => s
  | .reboot, s => s
  | .rootInfo, s => s
  | .uploadForm, s => s

def runOps : List Op → SysState → SysState
  | [], s => s
  | op :: ops, s => runOps ops (applyOp op s)

/-- The intermediate states one operation passes through. -/
def opMicro : Op → SysState → List SysState
  | .ring ok, s => doRingMicro ok s
  | op, s => [applyOp op s]

/-- Every state the machine passes through while running a sequence of
operations, including the intermediate states inside each ring. -/
def microStates : List Op → SysState → List SysState
  | [], s => [s]
  | op :: ops, s => s :: (opMicro op s ++ microStates ops (applyOp op s))

/-- Handle bookkeeping invariant at operation boundaries: the open-source
count matches the current pointer, and when the decoder is idle no open
source is held. -/
def J (s : SysState) : Prop :=
  s.openSrcs = srcOpenCount s.file ∧ (s.mp3Running = false → s.openSrcs = 0)

instance (s : SysState) : Decidable (J s) := by
  unfold J; infer_instance

/-- When the decoder reports running, the playback source pointer is
non-null (never a released handle). -/
def InvHandle (s : SysState) : Prop := s.mp3Running = true → s.file.isSome = true

instance (s : SysState) : Decidable (InvHandle s) := by
  unfold InvHandle; infer_instance

/-- When the decoder reports running, the playback source is non-null and
holds an open file. -/
def InvOpen (s : SysState) : Prop :=
  s.mp3Running = true → ∃ h, s.file = some h ∧ h.isOpen = true

/-- Decoder-library contract along a run: mp3->begin only reports success
when the source it is given holds an open file, i.e. when the asset was
present at the moment the ring opened it. -/
def ringEnvOk : List Op → SysState → Prop
  | [], _ => True
  | Op.ring b :: ops, s =>
      (b = true → s.store.isSome = true) ∧ ringEnvOk ops (applyOp (Op.ring b) s)
  | Op.tick adv :: ops, s => ringEnvOk ops (applyOp (Op.tick adv) s)
  | Op.upload e :: ops, s => ringEnvOk ops (applyOp (Op.upload e) s)
  | Op.settings :: ops, s => ringEnvOk ops (applyOp Op.settings s)
  | Op.reboot :: ops, s => ringEnvOk ops (applyOp Op.reboot s)
  | Op.rootInfo :: ops, s => ringEnvOk ops (applyOp Op.rootInfo s)
  | Op.uploadForm :: ops, s => ringEnvOk ops (applyOp Op.uploadForm s)

/-- Externally visible actions of a command handler, in program order. -/
inductive Act where
  | send
  | play
  | fsWrite
  | delayMs (n : Nat)
  | restartDev
deriving DecidableEq, Repr

/-- The six routed commands (setHttpServerRouting). -/
inductive Cmd where
  | rootInfo
  | ring (ok : Bool)
  | settings
  | reboot
  | uploadForm
  | uploadSubmit (evs : List UpEvent)
deriving DecidableEq, Repr

/-- Dispatch of one command: the resulting state and the handler's action
trace.  doRing sends its acknowledgment before touching the audio
objects; doReboot sends, delays 1000 ms, then restarts; the upload POST
route processes the chunk events and then sends; the other handlers only
send. -/
def handleCmd : Cmd → SysState → SysState × List Act
  | .rootInfo, s => (s, [.send])
  | .ring ok, s => (doRingFn ok s, [.send, .play])
  | .settings, s => (s, [.send])
  | .reboot, s => (s, [.send, .delayMs 1000, .restartDev])
  | .uploadForm, s => (s, [.send])
  | .uploadSubmit evs, s =>
      (runUp evs s, List.map (fun _ => Act.fsWrite) evs ++ [.send])

/-- The four steps of one loop() iteration. -/
inductive Step where
  | reconfig
  | ota
  | dispatch
  | playbackTick
deriving DecidableEq, Repr

/-- Per-iteration environment: whether the portal button reads LOW,
whether startConfigPortal succeeds if entered, the command (if any) the
HTTP server delivers this iteration, and the bytes the decoder consumes
in the tick. -/
structure Env where
  buttonPressed : Bool
  portalOk : Bool
  cmd : Option Cmd
  adv : Nat
deriving DecidableEq, Repr

def fullTrace : List Step :=
  [Step.reconfig, Step.ota, Step.dispatch, Step.playbackTick]

/-- One iteration of loop() (lines 317-355): the portal-button check (on
portal failure ESP.reset aborts the iteration), ArduinoOTA.handle, the
HTTP dispatch (a reboot command restarts the device inside dispatch), and
the playback step.  Returns none when the device restarted mid-iteration,
together with the list of steps the iteration serviced, in order. -/
def loopIter (e : Env) (s : SysState) : Option SysState × List Step :=
  if e.buttonPressed && !e.portalOk then
    (none, [Step.reconfig])
  else
    match e.cmd with
    | some Cmd.reboot => (none, [Step.reconfig, Step.ota, Step.dispatch])
    | some c => (some (playTick e.adv (handleCmd c s).1), fullTrace)
    | none => (some (playTick e.adv s), fullTrace)

/-- Device restart: volatile state is reinitialised, the persistent store
survives. -/
def restartState (s : SysState) : SysState := bootState s.store

/-- A concrete mid-playback state: a 7-byte asset, 3 bytes consumed. -/
def ringingState : SysState :=
  { store := some 7, file := some { size := 7, pos := 3, isOpen := true },
    mp3Running := true, openSrcs := 1, uploadFile := none, ledBlue := true }

/-- A concrete quiet iteration environment: no button, no command. -/
def quietEnv : Env :=
  { buttonPressed := false, portalOk := true, cmd := none, adv := 3 }

/-! Helper lemmas. -/

theorem srcOpenCount_le_one (f : Option FileSrc) : srcOpenCount f ≤ 1 := by
  rcases f with _ | h
  · simp [srcOpenCount]
  · simp only [srcOpenCount]
    split <;> omega

theorem upStep_file (s : SysState) (e : UpEvent) : (upStep s e).file = s.file := by
  rcases e with ok | n | t | _ <;> rcases hu : s.uploadFile with _ | w <;>
    simp [upStep, hu] <;> split <;> rfl

theorem upStep_running (s : SysState) (e : UpEvent) :
    (upStep s e).mp3Running = s.mp3Running := by
  rcases e with ok | n | t | _ <;> rcases hu : s.uploadFile with _ | w <;>
    simp [upStep, hu] <;> split <;> rfl

theorem upStep_openSrcs (s : SysState) (e : UpEvent) :
    (upStep s e).openSrcs = s.openSrcs := by
  rcases e with ok | n | t | _ <;> rcases hu : s.uploadFile with _ | w <;>
    simp [upStep, hu] <;> split <;> rfl

theorem upStep_ledBlue (s : SysState) (e : UpEvent) :
    (upStep s e).ledBlue = s.ledBlue := by
  rcases e with ok | n | t | _ <;> rcases hu : s.uploadFile with _ | w <;>
    simp [upStep, hu] <;> split <;> rfl

theorem runUp_append (es es2 : List UpEvent) (s : SysState) :
    runUp (es ++ es2) s = runUp es2 (runUp es s) := by
  induction es generalizing s with
  | nil => rfl
  | cons e es ih => simp [runUp, ih]

theorem writes_noop (ws : List Nat) (s : SysState) (h : s.uploadFile = none) :
    runUp (List.map UpEvent.write ws) s = s := by
  induction ws with
  | nil => rfl
  | cons n ws ih => simp [runUp, upStep, h, ih, h]

theorem doRingFn_file (ok : Bool) (s : SysState) :
    ∃ st, (doRingFn ok s).file = some (mkSrc st) := by
  unfold doRingFn
  split <;> exact ⟨_, rfl⟩

theorem stopStep_store (s : SysState) : (stopStep s).store = s.store := rfl

theorem closeSrcStep_store (s : SysState) : (closeSrcStep s).store = s.store := by
  unfold closeSrcStep
  split <;> rfl

theorem deleteSrcStep_store (s : SysState) : (deleteSrcStep s).store = s.store := by
  unfold deleteSrcStep
  split <;> rfl

theorem doRingFn_running (ok : Bool) (s : SysState) :
    (doRingFn ok s).mp3Running = ok := by
  unfold doRingFn
  split <;> rfl

theorem doRingFn_file_eq (ok : Bool) (s : SysState) :
    (doRingFn ok s).file = some (mkSrc s.store) := by
  unfold doRingFn
  split
  · show (beginStep ok (openSrcStep (deleteSrcStep (closeSrcStep (stopStep s))))).file = _
    simp [beginStep, openSrcStep, deleteSrcStep_store, closeSrcStep_store, stopStep_store]
  · simp [beginStep, openSrcStep, ledOnStep]

theorem J_ring_true (s : SysState) (h : J s) : J (doRingFn true s) := by
  obtain ⟨h1, h2⟩ := h
  unfold doRingFn
  split
  · rcases hf : s.file with _ | hd
    · rw [hf, srcOpenCount] at h1
      refine ⟨?_, by simp [beginStep]⟩
      simp [beginStep, openSrcStep, deleteSrcStep, closeSrcStep, stopStep, hf, h1]
    · rw [hf, srcOpenCount] at h1
      refine ⟨?_, by simp [beginStep]⟩
      simp only [beginStep, openSrcStep, deleteSrcStep, closeSrcStep, stopStep, hf]
      simp [h1]
  · next hr =>
    have h0 : s.openSrcs = 0 := h2 (by simpa using hr)
    refine ⟨?_, by simp [beginStep]⟩
    simp [beginStep, openSrcStep, ledOnStep, h0]

theorem playTick_idle (adv : Nat) (s : SysState) (h : s.mp3Running = false) :
    playTick adv s = s := by
  simp [playTick, h]

theorem playTick_null (adv : Nat) (s : SysState) (hr : s.mp3Running = true)
    (hf : s.file = none) : playTick adv s = s := by
  simp [playTick, hr, hf]

theorem playTick_done (adv : Nat) (s : SysState) (hd : FileSrc)
    (hr : s.mp3Running = true) (hf : s.file = some hd)
    (hc : hd.size = min (hd.pos + adv) hd.size) :
    playTick adv s =
      { s with
        mp3Running := false
        file := none
        openSrcs := s.openSrcs - (if hd.isOpen then 1 else 0)
        ledBlue := false } := by
  unfold playTick
  rw [hf, if_pos hr]
  simp only []
  rw [if_pos hc]

theorem playTick_going (adv : Nat) (s : SysState) (hd : FileSrc)
    (hr : s.mp3Running = true) (hf : s.file = some hd)
    (hc : ¬ hd.size = min (hd.pos + adv) hd.size) :
    playTick adv s = { s with file := some { hd with pos := min (hd.pos + adv) hd.size } } := by
  unfold playTick
  rw [hf, if_pos hr]
  simp only []
  rw [if_neg hc]

theorem J_tick (adv : Nat) (s : SysState) (h : J s) : J (playTick adv s) := by
  obtain ⟨h1, h2⟩ := h
  rcases hr : s.mp3Running with _ | _
  · rw [playTick_idle adv s hr]
    exact ⟨h1, h2⟩
  · rcases hf : s.file with _ | hd
    · rw [playTick_null adv s hr hf]
      exact ⟨h1, h2⟩
    · rw [hf, srcOpenCount] at h1
      by_cases hc : hd.size = min (hd.pos + adv) hd.size
      · rw [playTick_done adv s hd hr hf hc]
        have hz : s.openSrcs - (if hd.isOpen then 1 else 0) = 0 := by
          rw [h1]
          split <;> simp
        exact ⟨by simp [srcOpenCount, hz], by simp [hz]⟩
      · rw [playTick_going adv s hd hr hf hc]
        refine ⟨by simp [srcOpenCount, h1], fun hx => ?_⟩
        simp only at hx
        rw [hx] at hr
        simp at hr

theorem J_upload (e : UpEvent) (s : SysState) (h : J s) : J (upStep s e) := by
  obtain ⟨h1, h2⟩ := h
  exact ⟨by rw [upStep_openSrcs, upStep_file, h1],
    by rw [upStep_running, upStep_openSrcs]; exact h2⟩

theorem J_apply (op : Op) (s : SysState) (h : J s)
    (hok : ∀ b, op = Op.ring b → b = true) : J (applyOp op s) := by
  rcases op with b | adv | e | _ | _ | _ | _
  · have hb : b = true := hok b rfl
    subst hb
    exact J_ring_true s h
  · exact J_tick adv s h
  · exact J_upload e s h
  · exact h
  · exact h
  · exact h
  · exact h

theorem ring_micro_bound (ok : Bool) (s : SysState) (h : J s) :
    ∀ x ∈ doRingMicro ok s, x.openSrcs ≤ 1 := by
  obtain ⟨h1, h2⟩ := h
  have hb := srcOpenCount_le_one s.file
  unfold doRingMicro
  split
  · rcases hf : s.file with _ | hd
    · rw [hf, srcOpenCount] at h1
      intro x hx
      simp only [List.mem_cons, List.not_mem_nil, or_false] at hx
      rcases hx with rfl | rfl | rfl | rfl | rfl <;>
        simp [beginStep, openSrcStep, deleteSrcStep, closeSrcStep, stopStep, hf, h1,
          srcOpenCount_le_one]
    · rw [hf, srcOpenCount] at h1
      intro x hx
      simp only [List.mem_cons, List.not_mem_nil, or_false] at hx
      rcases hx with rfl | rfl | rfl | rfl | rfl <;>
        simp only [beginStep, openSrcStep, deleteSrcStep, closeSrcStep, stopStep, hf] <;>
        simp [h1, srcOpenCount] <;> split <;> simp [srcOpenCount_le_one]
  · next hr =>
    have h0 : s.openSrcs = 0 := h2 (by simpa using hr)
    intro x hx
    simp only [List.mem_cons, List.not_mem_nil, or_false] at hx
    rcases hx with rfl | rfl | rfl <;>
      simp [beginStep, openSrcStep, ledOnStep, h0, srcOpenCount_le_one]

theorem micro_bound (ops : List Op) (s : SysState) (h : J s)
    (hok : ∀ b, Op.ring b ∈ ops → b = true) :
    ∀ x ∈ microStates ops s, x.openSrcs ≤ 1 := by
  induction ops generalizing s with
  | nil =>
    intro x hx
    simp only [microStates, List.mem_singleton] at hx
    rw [hx, h.1]
    exact srcOpenCount_le_one _
  | cons op ops ih =>
    intro x hx
    simp only [microStates, List.mem_cons, List.mem_append] at hx
    rcases hx with hx | hx | hx
    · rw [hx, h.1]
      exact srcOpenCount_le_one _
    · rcases op with b | adv | e | _ | _ | _ | _
      · exact ring_micro_bound b s h x hx
      · simp only [opMicro, List.mem_singleton] at hx
        rw [hx]
        show (playTick adv s).openSrcs ≤ 1
        rw [(J_tick adv s h).1]
        exact srcOpenCount_le_one _
      · simp only [opMicro, List.mem_singleton] at hx
        rw [hx]
        show (upStep s e).openSrcs ≤ 1
        rw [(J_upload e s h).1]
        exact srcOpenCount_le_one _
      all_goals
        simp only [opMicro, List.mem_singleton] at hx
      all_goals
        rw [hx]
      all_goals
        show s.openSrcs ≤ 1
      all_goals
        rw [h.1]
      all_goals
        exact srcOpenCount_le_one _
    · have hJ2 : J (applyOp op s) :=
        J_apply op s h (fun b hb => hok b (by simp [hb]))
      exact ih (applyOp op s) hJ2 (fun b hb => hok b (List.mem_cons_of_mem _ hb)) x hx

theorem upStep_invU (e : UpEvent) (acc : Nat) (s : SysState) (h : invU acc s)
    (hwf : ∀ t, e = UpEvent.fileEnd t → t = acc) :
    invU (accAfterB acc [e]) (upStep s e) := by
  rcases e with ok | n | t | _
  · rcases ok with _ | _
    · exact Or.inl ⟨rfl, by simp [upStep]⟩
    · exact Or.inr ⟨rfl, rfl⟩
  · rcases h with ⟨hu, hs⟩ | ⟨hu, hs⟩
    · simp only [upStep, hu]
      exact Or.inl ⟨hu, hs⟩
    · simp only [upStep, hu]
      exact Or.inr ⟨rfl, rfl⟩
  · have ht : t = acc := hwf t rfl
    subst ht
    rcases h with ⟨hu, hs⟩ | ⟨hu, hs⟩
    · simp only [upStep, hu]
      exact Or.inl ⟨hu, hs⟩
    · simp only [upStep, hu]
      by_cases h0 : t = 0
      · rw [if_pos h0]
        exact Or.inl ⟨rfl, by simp⟩
      · rw [if_neg h0]
        refine Or.inl ⟨rfl, ?_⟩
        rw [hs]
        simp [h0]
  · rcases h with ⟨hu, hs⟩ | ⟨hu, hs⟩
    · simp only [upStep, hu]
      exact Or.inl ⟨hu, hs⟩
    · simp only [upStep, hu]
      exact Or.inl ⟨rfl, by simp⟩

theorem runUp_invU (es : List UpEvent) (acc : Nat) (s : SysState)
    (h : invU acc s) (hwf : wfB acc es = true) :
    invU (accAfterB acc es) (runUp es s) := by
  induction es generalizing acc s with
  | nil => exact h
  | cons e es ih =>
    rcases e with ok | n | t | _
    · exact ih 0 _ (upStep_invU (UpEvent.start ok) acc s h (by simp)) (by simpa [wfB] using hwf)
    · exact ih (acc + n) _ (upStep_invU (UpEvent.write n) acc s h (by simp))
        (by simpa [wfB] using hwf)
    · have hw : t = acc ∧ wfB acc es = true := by simpa [wfB] using hwf
      exact ih acc _ (upStep_invU (UpEvent.fileEnd t) acc s h (fun t2 ht2 => by
        injection ht2 with h3
        exact h3 ▸ hw.1)) hw.2
    · exact ih acc _ (upStep_invU UpEvent.aborted acc s h (by simp)) (by simpa [wfB] using hwf)

theorem upStep_end_closes (s : SysState) (t : Nat) :
    (upStep s (UpEvent.fileEnd t)).uploadFile = none := by
  rcases hu : s.uploadFile with _ | w
  · simp [upStep, hu]
  · simp only [upStep, hu]
    split <;> rfl

theorem upStep_abort_closes (s : SysState) :
    (upStep s UpEvent.aborted).uploadFile = none := by
  rcases hu : s.uploadFile with _ | w <;> simp [upStep, hu]

theorem invHandle_apply (op : Op) (s : SysState) (h : InvHandle s) :
    InvHandle (applyOp op s) := by
  rcases op with b | adv | e | _ | _ | _ | _
  · intro _
    obtain ⟨st, hst⟩ := doRingFn_file b s
    simp [applyOp, hst]
  · rcases hr : s.mp3Running with _ | _
    · rw [show applyOp (Op.tick adv) s = s from playTick_idle adv s hr]
      exact h
    · rcases hf : s.file with _ | hd
      · rw [show applyOp (Op.tick adv) s = s from playTick_null adv s hr hf]
        exact h
      · by_cases hc : hd.size = min (hd.pos + adv) hd.size
        · rw [show applyOp (Op.tick adv) s = _ from playTick_done adv s hd hr hf hc]
          intro hx
          simp at hx
        · rw [show applyOp (Op.tick adv) s = _ from playTick_going adv s hd hr hf hc]
          intro _
          simp
  · intro hx
    rw [show applyOp (Op.upload e) s = upStep s e from rfl, upStep_running] at hx
    rw [show applyOp (Op.upload e) s = upStep s e from rfl, upStep_file]
    exact h hx
  · exact h
  · exact h
  · exact h
  · exact h

theorem invHandle_run (ops : List Op) (s : SysState) (h : InvHandle s) :
    InvHandle (runOps ops s) := by
  induction ops generalizing s with
  | nil => exact h
  | cons op ops ih => exact ih (applyOp op s) (invHandle_apply op s h)

theorem invOpen_run (ops : List Op) (s : SysState) (h : InvOpen s)
    (henv : ringEnvOk ops s) : InvOpen (runOps ops s) := by
  induction ops generalizing s with
  | nil => exact h
  | cons op ops ih =>
    have hstep : InvOpen (applyOp op s) ∧ ringEnvOk ops (applyOp op s) := by
      rcases op with b | adv | e | _ | _ | _ | _
      · obtain ⟨hb, henv2⟩ := henv
        refine ⟨?_, henv2⟩
        intro hrun
        rcases b with _ | _
        · rw [show applyOp (Op.ring false) s = doRingFn false s from rfl,
            doRingFn_running] at hrun
          simp at hrun
        · rcases hst : s.store with _ | n
          · have hsome := hb rfl
            rw [hst] at hsome
            simp at hsome
          · refine ⟨mkSrc s.store, ?_, ?_⟩
            · exact doRingFn_file_eq true s
            · rw [hst]
              rfl
      · refine ⟨?_, henv⟩
        rcases hr : s.mp3Running with _ | _
        · rw [show applyOp (Op.tick adv) s = s from playTick_idle adv s hr]
          exact h
        · obtain ⟨hd, hf, ho⟩ := h hr
          by_cases hc : hd.size = min (hd.pos + adv) hd.size
          · rw [show applyOp (Op.tick adv) s = _ from playTick_done adv s hd hr hf hc]
            intro hx
            simp at hx
          · rw [show applyOp (Op.tick adv) s = _ from playTick_going adv s hd hr hf hc]
            intro _
            exact ⟨_, rfl, ho⟩
      · refine ⟨?_, henv⟩
        intro hx
        rw [show applyOp (Op.upload e) s = upStep s e from rfl, upStep_running] at hx
        obtain ⟨hd, hf, ho⟩ := h hx
        refine ⟨hd, ?_, ho⟩
        rw [show applyOp (Op.upload e) s = upStep s e from rfl, upStep_file]
        exact hf
      · exact ⟨h, henv⟩
      · exact ⟨h, henv⟩
      · exact ⟨h, henv⟩
      · exact ⟨h, henv⟩
    exact ih (applyOp op s) hstep.1 hstep.2

/-! Claim theorems. -/

/-- C1, counterexample: the claim "for every sequence of ring commands, at
most one file-source/decoder pair is open at any instant" is false as
stated.  With a 100-byte asset present, a ring whose decoder begin fails
leaves the decoder idle but the just-opened source alive; the next ring
takes the not-running branch of doRing, which opens a second source
without closing or deleting the first (src/DoorBellRepeater.ino lines
197-203), so two sources are open at once. -/
theorem C1_double_open_counterexample :
    ¬ (∀ x ∈ microStates [Op.ring false, Op.ring true] (bootState (some 100)),
        x.openSrcs ≤ 1) := by
  decide

/-- C1, amended: for every sequence of ring commands (interleaved with
ticks, upload events and the other handlers) in which every decoder begin
succeeds, at most one file-source/decoder pair is open at any instant,
including at every intermediate state inside a ring; and when ring() is
invoked while a playback session is active, the controller first stops
the decoder and closes and releases the existing source (the live
open-source count drops to 0) and only then opens a new source against
the same asset and restarts the decoder. -/
theorem C1_single_open_invariant :
    (∀ ops s0, J s0 → (∀ b, Op.ring b ∈ ops → b = true) →
      ∀ x ∈ microStates ops s0, x.openSrcs ≤ 1)
    ∧ (∀ ok s n hd, s.mp3Running = true → s.file = some hd → hd.isOpen = true →
        s.openSrcs = 1 → s.store = some n →
        List.map SysState.openSrcs (doRingMicro ok s) = [1, 0, 0, 1, 1]) := by
  constructor
  · exact micro_bound
  · intro ok s n hd hr hf ho hc hst
    unfold doRingMicro
    rw [if_pos hr]
    simp [stopStep, closeSrcStep, deleteSrcStep, openSrcStep, beginStep, hf, ho, hc,
      hst, srcOpenCount, mkSrc]

/-- C1 witness: the amended invariant and the restart micro-trace at
concrete inputs. -/
theorem C1_witness :
    (J (bootState (some 2))
      ∧ (∀ b, Op.ring b ∈ [Op.ring true, Op.tick 1, Op.ring true] → b = true)
      ∧ ringingState.mp3Running = true)
    ∧ (∀ x ∈ microStates [Op.ring true, Op.tick 1, Op.ring true] (bootState (some 2)),
        x.openSrcs ≤ 1)
    ∧ List.map SysState.openSrcs (doRingMicro true ringingState) = [1, 0, 0, 1, 1] :=
  ⟨⟨by decide, by decide, by decide⟩,
   C1_single_open_invariant.1 [Op.ring true, Op.tick 1, Op.ring true]
     (bootState (some 2)) (by decide) (by decide),
   C1_single_open_invariant.2 true ringingState 7 { size := 7, pos := 3, isOpen := true }
     (by decide) (by decide) (by decide) (by decide) (by decide)⟩

/-- C2: during an active session (decoder running, source bound), a tick
advances the read position and then tears the session down exactly when
the position has reached the source's total size: the decoder is stopped,
the source closed and released, the session cleared and the indicator
reset, and no teardown happens while the position is strictly below the
size (the state only records the advanced position). -/
theorem C2_end_of_stream_teardown (adv : Nat) (s : SysState) (hd : FileSrc)
    (hr : s.mp3Running = true) (hf : s.file = some hd) :
    ((playTick adv s).mp3Running = false ↔ hd.size = min (hd.pos + adv) hd.size)
    ∧ (hd.size = min (hd.pos + adv) hd.size →
        playTick adv s =
          { s with
            mp3Running := false
            file := none
            openSrcs := s.openSrcs - (if hd.isOpen then 1 else 0)
            ledBlue := false })
    ∧ (¬ hd.size = min (hd.pos + adv) hd.size →
        playTick adv s =
          { s with file := some { hd with pos := min (hd.pos + adv) hd.size } }) := by
  refine ⟨⟨?_, ?_⟩, playTick_done adv s hd hr hf, playTick_going adv s hd hr hf⟩
  · intro hstop
    by_contra hc
    rw [playTick_going adv s hd hr hf hc] at hstop
    simp at hstop
    rw [hr] at hstop
    simp at hstop
  · intro hc
    rw [playTick_done adv s hd hr hf hc]

/-- C2 witness: with a 7-byte source at position 3, a 4-byte tick reaches
the end and stops the session; a 2-byte tick does not. -/
theorem C2_witness :
    (ringingState.mp3Running = true ∧ ringingState.file = some { size := 7, pos := 3, isOpen := true })
    ∧ ((playTick 4 ringingState).mp3Running = false ↔ (7 : Nat) = min (3 + 4) 7)
    ∧ ((playTick 2 ringingState).mp3Running = false ↔ (7 : Nat) = min (3 + 2) 7) :=
  ⟨⟨by decide, by decide⟩,
   (C2_end_of_stream_teardown 4 ringingState { size := 7, pos := 3, isOpen := true }
     (by decide) (by decide)).1,
   (C2_end_of_stream_teardown 2 ringingState { size := 7, pos := 3, isOpen := true }
     (by decide) (by decide)).1⟩

/-- C5: when the decoder is not running, the playback step of loop() is a
no-op: the resulting state is identical, so decoder, file source,
indicator and store are all untouched. -/
theorem C5_idle_tick_noop (adv : Nat) (s : SysState)
    (h : s.mp3Running = false) : playTick adv s = s :=
  playTick_idle adv s h

/-- C5 witness. -/
theorem C5_witness :
    (bootState none).mp3Running = false ∧ playTick 3 (bootState none) = bootState none :=
  ⟨by decide, C5_idle_tick_noop 3 (bootState none) (by decide)⟩

/-- C6, code evaluation at the failing input: with a 100-byte asset, a
ring whose decoder begin fails leaves the controller with the decoder
idle but the file source open, the playing indicator still lit and the
open-handle count at 1 — doRing ignores the result of mp3->begin and
performs no fallback to idle and no indicator reset (the spec requires
both). -/
theorem C6_begin_unchecked_bug :
    (doRingFn false (bootState (some 100))).mp3Running = false
    ∧ (doRingFn false (bootState (some 100))).file =
        some { size := 100, pos := 0, isOpen := true }
    ∧ (doRingFn false (bootState (some 100))).ledBlue = true
    ∧ (doRingFn false (bootState (some 100))).openSrcs = 1 := by
  decide

/-- C3: for every well-formed upload event sequence (each end event
reports exactly the bytes delivered since the last start, as the HTTP
layer does), from any state satisfying the upload invariant, whenever the
write handle is closed — in particular right after the end or abort event
that makes the controller reach Completed or Aborted, both of which close
the handle — the store holds no zero-length asset.  Moreover an end event
with a declared total of 0 closes the handle and deletes the just-written
empty asset, and an abort event closes the handle if open and deletes the
partially written asset. -/
theorem C3_store_invariant :
    (∀ es acc s, invU acc s → wfB acc es = true →
      (runUp es s).uploadFile = none → (runUp es s).store ≠ some 0)
    ∧ (∀ s t, (upStep s (UpEvent.fileEnd t)).uploadFile = none)
    ∧ (∀ s, (upStep s UpEvent.aborted).uploadFile = none)
    ∧ (∀ s w, s.uploadFile = some w →
        upStep s (UpEvent.fileEnd 0) = { s with uploadFile := none, store := none })
    ∧ (∀ s w, s.uploadFile = some w →
        upStep s UpEvent.aborted = { s with uploadFile := none, store := none }) := by
  refine ⟨?_, upStep_end_closes, upStep_abort_closes, ?_, ?_⟩
  · intro es acc s h hwf hclosed
    rcases runUp_invU es acc s h hwf with ⟨_, hs⟩ | ⟨hu, _⟩
    · exact hs
    · rw [hclosed] at hu
      simp at hu
  · intro s w hu
    simp [upStep, hu]
  · intro s w hu
    simp [upStep, hu]

/-- C3 witness: a complete 5-byte upload followed by checking the store,
applied through the invariant theorem. -/
theorem C3_witness :
    (invU 0 (bootState none)
      ∧ wfB 0 [UpEvent.start true, UpEvent.write 5, UpEvent.fileEnd 5] = true
      ∧ (runUp [UpEvent.start true, UpEvent.write 5, UpEvent.fileEnd 5]
          (bootState none)).uploadFile = none)
    ∧ (runUp [UpEvent.start true, UpEvent.write 5, UpEvent.fileEnd 5]
        (bootState none)).store ≠ some 0 :=
  ⟨⟨by decide, by decide, by decide⟩,
   C3_store_invariant.1 [UpEvent.start true, UpEvent.write 5, UpEvent.fileEnd 5]
     0 (bootState none) (by decide) (by decide) (by decide)⟩

/-- C4: a start event whose open fails leaves the store empty (the old
asset was deleted first) and the handle invalid; every subsequent chunk
event on an invalid handle is a no-op leaving the whole state unchanged;
and a failed-start transfer, whatever chunks follow and whatever total
the end event declares, ends with no asset in the store and no open
handle. -/
theorem C4_failed_open_drop_safe :
    (∀ s, upStep s (UpEvent.start false) = { s with store := none, uploadFile := none })
    ∧ (∀ s n, s.uploadFile = none → upStep s (UpEvent.write n) = s)
    ∧ (∀ s ws t,
        (runUp (UpEvent.start false :: (List.map UpEvent.write ws ++ [UpEvent.fileEnd t]))
          s).store = none
        ∧ (runUp (UpEvent.start false :: (List.map UpEvent.write ws ++ [UpEvent.fileEnd t]))
            s).uploadFile = none) := by
  refine ⟨fun s => by simp [upStep], fun s n h => by simp [upStep, h], ?_⟩
  intro s ws t
  have hrun : runUp (UpEvent.start false :: (List.map UpEvent.write ws ++ [UpEvent.fileEnd t])) s
      = upStep (upStep s (UpEvent.start false)) (UpEvent.fileEnd t) := by
    show runUp (List.map UpEvent.write ws ++ [UpEvent.fileEnd t])
        (upStep s (UpEvent.start false)) = _
    rw [runUp_append, writes_noop ws _ (by simp [upStep])]
    rfl
  rw [hrun]
  exact ⟨rfl, rfl⟩

/-- C4 witness. -/
theorem C4_witness :
    ((bootState none).uploadFile = none
      ∧ upStep (bootState none) (UpEvent.write 9) = bootState none)
    ∧ (runUp (UpEvent.start false :: (List.map UpEvent.write [3, 4] ++ [UpEvent.fileEnd 7]))
        (bootState (some 11))).store = none :=
  ⟨⟨by decide, (C4_failed_open_drop_safe.2.1 (bootState none) 9 (by decide))⟩,
   (C4_failed_open_drop_safe.2.2 (bootState (some 11)) [3, 4] 7).1⟩

/-- C7: every iteration of loop() services its steps in the fixed order
reconfiguration check, update-channel (OTA) service, command dispatch,
playback tick; an iteration that does not restart the device services
exactly these four in that order, an iteration cut short by a device
restart (portal failure or reboot command) services a prefix of them in
that order, and no iteration runs the playback tick more than once. -/
theorem C7_loop_order (e : Env) (s : SysState) :
    ((loopIter e s).2 = [Step.reconfig]
      ∨ (loopIter e s).2 = [Step.reconfig, Step.ota, Step.dispatch]
      ∨ (loopIter e s).2 = fullTrace)
    ∧ ((loopIter e s).1.isSome = true → (loopIter e s).2 = fullTrace)
    ∧ ((loopIter e s).2).count Step.playbackTick ≤ 1 := by
  have hc1 : List.count Step.playbackTick [Step.reconfig] ≤ 1 := by decide
  have hc3 : List.count Step.playbackTick [Step.reconfig, Step.ota, Step.dispatch] ≤ 1 := by
    decide
  have hc4 : List.count Step.playbackTick fullTrace ≤ 1 := by decide
  unfold loopIter
  by_cases hb : (e.buttonPressed && !e.portalOk) = true
  · rw [if_pos hb]
    exact ⟨Or.inl rfl, by intro h; simp at h, hc1⟩
  · rw [if_neg hb]
    rcases e.cmd with _ | c
    · exact ⟨Or.inr (Or.inr rfl), fun _ => rfl, hc4⟩
    · rcases c with _ | ok | _ | _ | _ | evs
      · exact ⟨Or.inr (Or.inr rfl), fun _ => rfl, hc4⟩
      · exact ⟨Or.inr (Or.inr rfl), fun _ => rfl, hc4⟩
      · exact ⟨Or.inr (Or.inr rfl), fun _ => rfl, hc4⟩
      · exact ⟨Or.inr (Or.inl rfl), by intro h; simp at h, hc3⟩
      · exact ⟨Or.inr (Or.inr rfl), fun _ => rfl, hc4⟩
      · exact ⟨Or.inr (Or.inr rfl), fun _ => rfl, hc4⟩

/-- C7 witness: a quiet iteration completes and services exactly the four
steps in order. -/
theorem C7_witness :
    (loopIter quietEnv (bootState none)).1.isSome = true
    ∧ (loopIter quietEnv (bootState none)).2 = fullTrace :=
  ⟨by decide, (C7_loop_order quietEnv (bootState none)).2.1 (by decide)⟩

/-- C8: every routed command handler emits a send action (the HTTP
response) regardless of the state it runs in, so a caller is never left
without acknowledgment even when the underlying operation fails
internally; the ring handler's very first action is the send, before any
playback effect; and the reboot handler's trace is exactly send, a
bounded 1000 ms pause, then the device restart. -/
theorem C8_always_respond (c : Cmd) (s : SysState) :
    Act.send ∈ (handleCmd c s).2
    ∧ (∀ ok, (handleCmd (Cmd.ring ok) s).2 = [Act.send, Act.play])
    ∧ (handleCmd Cmd.reboot s).2 = [Act.send, Act.delayMs 1000, Act.restartDev] := by
  refine ⟨?_, fun ok => rfl, rfl⟩
  rcases c with _ | ok | _ | _ | _ | evs <;> simp [handleCmd]

/-- C9: whenever the decoder reports running, the playback source pointer
is non-null — no operation sequence (rings, ticks, upload events, the
other handlers) can reach a state where the per-tick getSize/getPos
access dereferences a released handle; and under the decoder-library
contract that begin only succeeds on a source holding an open file, the
bound source is moreover open. -/
theorem C9_running_implies_valid_source :
    (∀ ops s, InvHandle s → InvHandle (runOps ops s))
    ∧ (∀ ops s, InvOpen s → ringEnvOk ops s → InvOpen (runOps ops s)) :=
  ⟨invHandle_run, invOpen_run⟩

/-- C9 witness. -/
theorem C9_witness :
    InvHandle (bootState (some 4))
    ∧ InvHandle (runOps [Op.ring true, Op.tick 1] (bootState (some 4)))
    ∧ InvOpen (runOps [Op.ring true, Op.tick 1] (bootState (some 4))) :=
  ⟨by decide,
   C9_running_implies_valid_source.1 [Op.ring true, Op.tick 1] (bootState (some 4))
     (by decide),
   C9_running_implies_valid_source.2 [Op.ring true, Op.tick 1] (bootState (some 4))
     (fun hr => absurd hr (by decide)) ⟨fun _ => rfl, trivial⟩⟩

/-- C10: the reboot handler tears nothing down: up to the instant the
device restarts it has only sent its reply and paused — the playback
session state, the upload write handle and the store are all exactly as
before — and since the store is persistent, a reboot arriving mid-upload
leaves the partially written asset in the store across the restart. -/
theorem C10_reboot_no_teardown (s : SysState) :
    (handleCmd Cmd.reboot s).1 = s
    ∧ (handleCmd Cmd.reboot s).2 = [Act.send, Act.delayMs 1000, Act.restartDev]
    ∧ (handleCmd Cmd.reboot s).1.mp3Running = s.mp3Running
    ∧ (handleCmd Cmd.reboot s).1.file = s.file
    ∧ (handleCmd Cmd.reboot s).1.uploadFile = s.uploadFile
    ∧ (handleCmd Cmd.reboot s).1.store = s.store
    ∧ (restartState (handleCmd Cmd.reboot s).1).store = s.store :=
  ⟨rfl, rfl, rfl, rfl, rfl, rfl, rfl⟩

end DoorBell
